import Mathlib

/-!
Verification of the core of the `kn-plugin-func` function lifecycle client.

The development shallowly embeds the Go sources: pure computations become
Lean functions, and every interaction with the outside world (filesystem,
collaborator interfaces such as Builder/Pusher/Deployer, the YAML codec,
the system clock) is made explicit as an input: the result each external
call would produce is a field of an environment structure, and observable
effects are collected in an explicit event trace.

Machine integers are modelled as `Nat`/`Int` with explicit reduction
modulo `2^32` where the SHA-256 computation requires 32-bit wrap-around.
-/

set_option maxRecDepth 8000

namespace KnFunc

/-! ## Semantic versioning (model of the coreos/go-semver dependency)

`Function.Migrate` and `Function.Migrated` compare versions through the
`go-semver` library.  `semver.New` panics on a malformed version, which the
model represents by returning `none` from the comparison helpers; `Migrate`
then propagates the `none`.  Byte-wise Go string comparison is modelled on
the character sequence (identical on ASCII data).  String splitting is
implemented by structural recursion on the character list; the separators
used by go-semver are all single characters. -/

structure Semver where
  Major : Nat
  Minor : Nat
  Patch : Nat
  PreRelease : String
  Metadata : String
  deriving Repr, DecidableEq

/-- Split a character list at the first occurrence of `c`: go-semver's
`splitOff` (the part after the separator is empty when it does not occur). -/
def splitOffChar (c : Char) : List Char → List Char × List Char
  | [] => ([], [])
  | x :: xs =>
    if x = c then ([], xs)
    else
      let (a, b) := splitOffChar c xs
      (x :: a, b)

/-- Model of `strings.Split` at a single-character separator. -/
def splitChar (c : Char) : List Char → List (List Char)
  | [] => [[]]
  | x :: xs =>
    if x = c then [] :: splitChar c xs
    else
      match splitChar c xs with
      | [] => [[x]]
      | g :: gs => (x :: g) :: gs

/-- Model of `strconv.ParseUint(s, 10, 64)`: digits only, value below `2^64`. -/
def parseUint64 (s : List Char) : Option Nat :=
  if s ≠ [] ∧ s.all Char.isDigit then
    let n := s.foldl (fun a c => a * 10 + (c.toNat - 48)) 0
    if n < 18446744073709551616 then some n else none
  else none

/-- Model of `strconv.Atoi` (64-bit): optional sign, digits, `int64` bounds. -/
def goAtoi (s : List Char) : Option Int :=
  let (neg, ds) :=
    match s with
    | '-' :: rest => (true, rest)
    | '+' :: rest => (false, rest)
    | rest => (false, rest)
  match parseUint64 ds with
  | none => none
  | some n =>
    if neg then
      if n ≤ 9223372036854775808 then some (-(n : Int)) else none
    else
      if n < 9223372036854775808 then some (n : Int) else none

/-- go-semver `Version.Set`: strip metadata after the first `+`, strip the
pre-release after the first `-`, then require exactly three numeric
dot-separated components.  (`strings.SplitN(v, ".", 3)` and a full split
agree here: a third chunk still containing a dot fails `ParseUint` either
way.) -/
def semverParse (s : String) : Option Semver :=
  let (v1, metadata) := splitOffChar '+' s.data
  let (v2, preRelease) := splitOffChar '-' v1
  match splitChar '.' v2 with
  | [a, b, c] =>
    match parseUint64 a, parseUint64 b, parseUint64 c with
    | some ma, some mb, some mc =>
      some { Major := ma, Minor := mb, Patch := mc,
             PreRelease := String.mk preRelease, Metadata := String.mk metadata }
    | _, _, _ => none
  | _ => none

/-- go-semver `recursiveCompare` over the `[Major, Minor, Patch]` slices. -/
def recursiveCompare : List Nat → List Nat → Int
  | [], _ => 0
  | _ :: _, [] => 0
  | a :: as, b :: bs =>
    if a > b then 1 else if a < b then -1 else recursiveCompare as bs

/-- Go byte-wise string comparison `a > b` / `a < b`, as a three-way value. -/
def cmpChars : List Char → List Char → Int
  | [], [] => 0
  | [], _ :: _ => -1
  | _ :: _, [] => 1
  | a :: as, b :: bs =>
    if a.toNat > b.toNat then 1
    else if a.toNat < b.toNat then -1
    else cmpChars as bs

/-- go-semver `recursivePreReleaseCompare` on dot-split identifier lists. -/
def recursivePreReleaseCompare : List (List Char) → List (List Char) → Int
  | [], [] => 0
  | [], _ :: _ => -1
  | _ :: _, [] => 1
  | a :: as, b :: bs =>
    match goAtoi a, goAtoi b with
    | some _, none => -1
    | none, some _ => 1
    | some ai, some bi =>
      if ai > bi then 1 else if ai < bi then -1
      else recursivePreReleaseCompare as bs
    | none, none =>
      match cmpChars a b with
      | 1 => 1
      | -1 => -1
      | _ => recursivePreReleaseCompare as bs

/-- go-semver `preReleaseCompare`: an absent pre-release sorts above any
present one. -/
def preReleaseCompare (a b : Semver) : Int :=
  if a.PreRelease = "" ∧ b.PreRelease ≠ "" then 1
  else if a.PreRelease ≠ "" ∧ b.PreRelease = "" then -1
  else if a.PreRelease ≠ "" ∧ b.PreRelease ≠ "" then
    recursivePreReleaseCompare (splitChar '.' a.PreRelease.data)
      (splitChar '.' b.PreRelease.data)
  else 0

def Semver.Slice (v : Semver) : List Nat := [v.Major, v.Minor, v.Patch]

/-- go-semver `Version.Compare`. -/
def Semver.Compare (a b : Semver) : Int :=
  let c := recursiveCompare a.Slice b.Slice
  if c ≠ 0 then c else preReleaseCompare a b

/-- go-semver `Version.LessThan` lifted to version strings; `none` models
the panic of `semver.New` on a malformed input. -/
def semverLT (a b : String) : Option Bool :=
  match semverParse a, semverParse b with
  | some x, some y => some (x.Compare y < 0)
  | _, _ => none

/-! ## Data model

The Descriptor (`Function`).  The payloads of the nested configuration
values (`Git`, `Volume`, `Env`, `Options`, `Label`, `HealthEndpoints`) are
never inspected by the verified operations, only copied around, so they
are abstracted to opaque string payloads.  The sources use two schema
generations for the `Runtime` member (a plain language identifier in the
migration file, a section carrying the image in the client file); the
model follows the data model of the spec: a runtime section holding the
language identifier, the image reference and its digest, with the
migration-era string comparison reading the identifier. -/

def DefaultVersion : String := "0.0.0"

/-- The `RunDataDir` directory holds transient runtime metadata (`.func`). -/
def RunDataDir : String := ".func"

/-- Name of the build-stamp file inside the run data directory. -/
def buildstamp : String := "built"

abbrev Git := String
abbrev Volume := String
abbrev Env := String
abbrev Options := String
abbrev Label := String
abbrev HealthEndpoints := String

structure RuntimeSpec where
  Name : String := ""
  Image : String := ""
  ImageDigest : String := ""
  Namespace : String := ""
  Volumes : List Volume := []
  deriving Repr, DecidableEq

structure BuildSpec where
  Git : Git := ""
  BuildType : String := ""
  BuilderImages : List (String × String) := []
  Buildpacks : List String := []
  BuildEnvs : List Env := []
  deriving Repr, DecidableEq

structure RunSpec where
  Namespace : String := ""
  Volumes : List Volume := []
  Envs : List Env := []
  Annotations : List (String × String) := []
  Options : Options := ""
  Labels : List Label := []
  HealthEndpoints : HealthEndpoints := ""
  deriving Repr, DecidableEq

/-- The project Descriptor. `Created` is the creation timestamp in
nanoseconds; `0` models the zero `time.Time` (`IsZero`). -/
structure Function where
  Root : String := ""
  Name : String := ""
  Runtime : RuntimeSpec := {}
  Version : String := ""
  Created : Int := 0
  Build : BuildSpec := {}
  Run : RunSpec := {}
  deriving Repr, DecidableEq

/-- Modelled from the spec (`function.go` is not among the sources): a
Descriptor carries an image only once a build or the user recorded one;
`HasImage` is true iff the image reference is non-empty. -/
def Function.HasImage (f : Function) : Bool := f.Runtime.Image != ""

/-- Modelled from the spec (`function.go` is not among the sources): a
Descriptor is initialized iff it has both a non-empty runtime identifier
and a non-empty name. -/
def Function.Initialized (f : Function) : Bool :=
  f.Name != "" && f.Runtime.Name != ""

/-! ## Migration engine (`migrate.go`)

Each migration may consult the raw persisted descriptor file under a
version-specific partial schema.  Reading and YAML-decoding that file are
external effects; the combined outcome of each such read is a field of
`MigEnv`, as is the current wall-clock time used by the creation-stamp
migration. -/

/-- The pertinent aspects of the Function schema prior to the builder
images migration. -/
structure migrateToBuilderImages_previousFunction where
  Builder : String := ""
  deriving Repr, DecidableEq

/-- The pertinent aspects of the Functions schema prior to the 1.0.0
version migrations. -/
structure migrateTo100_previousFunction where
  BuildType : String := ""
  Git : Git := ""
  BuilderImages : List (String × String) := []
  Buildpacks : List String := []
  Builder : String := ""
  Namespace : String := ""
  Volumes : List Volume := []
  BuildEnvs : List Env := []
  Envs : List Env := []
  Annotations : List (String × String) := []
  Options : Options := ""
  Labels : List Label := []
  HealthEndpoints : HealthEndpoints := ""
  deriving Repr, DecidableEq

/-- External effects available to migrations: the clock, and the result of
re-parsing the persisted descriptor file (`ReadFile` + `yaml.Unmarshal`)
under each historical partial schema. -/
structure MigEnv where
  now : Int
  readBuilderImagesFile : Except String migrateToBuilderImages_previousFunction
  read100File : Except String migrateTo100_previousFunction

/-- Set `key` in an association-list map (Go map assignment; a `nil` map
and an empty map are indistinguishable after `make`). -/
def setKey (m : List (String × String)) (key v : String) : List (String × String) :=
  match m with
  | [] => [(key, v)]
  | (k, w) :: rest => if k = key then (k, v) :: rest else (k, w) :: setKey rest key v

/-- A migration: a threshold version and a transformation.  Go passes the
whole `migration` record to the migrator, which only reads its `.version`;
the model passes the version string directly. -/
structure Migration where
  version : String
  migrate : MigEnv → Function → String → Function × Option String

/-- The initial migration: functions with no creation stamp that appear to
pre-exist (name and runtime populated) receive a creation timestamp; the
version is recorded in all cases. -/
def migrateToCreationStamp (env : MigEnv) (f : Function) (v : String) :
    Function × Option String :=
  let f :=
    if f.Created = 0 then
      if f.Name ≠ "" ∧ f.Runtime.Name ≠ "" then { f with Created := env.now } else f
    else f
  ({ f with Version := v }, none)

/-- Carry a customized pre-builder-images `builder` value forward as the
builder image of the `pack` builder. -/
def migrateToBuilderImages (env : MigEnv) (f1 : Function) (v : String) :
    Function × Option String :=
  match env.readBuilderImagesFile with
  | .error e => (f1, some e)
  | .ok f0 =>
    let defaultPackBuilderImage := "gcr.io/paketo-buildpacks/builder:base"
    let f1 :=
      if f0.Builder ≠ "" ∧ f0.Builder ≠ defaultPackBuilderImage then
        { f1 with Build := { f1.Build with
            BuilderImages := setKey f1.Build.BuilderImages "pack" f0.Builder } }
      else f1
    ({ f1 with Version := v }, none)

/-- Move the pre-1.0.0 flat members into the `Build` and `Run` sections. -/
def migrateTo100Structure (env : MigEnv) (f1 : Function) (v : String) :
    Function × Option String :=
  match env.read100File with
  | .error e => (f1, some e)
  | .ok f0 =>
    let f1 := { f1 with
      Build := { f1.Build with
        Git := f0.Git
        BuildType := f0.BuildType
        BuilderImages := f0.BuilderImages
        Buildpacks := f0.Buildpacks
        BuildEnvs := f0.BuildEnvs }
      Run := { f1.Run with
        Namespace := f0.Namespace
        Volumes := f0.Volumes
        Envs := f0.Envs
        Annotations := f0.Annotations
        Options := f0.Options
        Labels := f0.Labels
        HealthEndpoints := f0.HealthEndpoints } }
    ({ f1 with Version := v }, none)

/-- The migrations registry, in ascending version order. -/
def migrations : List Migration :=
  [⟨"0.19.0", migrateToCreationStamp⟩,
   ⟨"0.23.0", migrateToBuilderImages⟩,
   ⟨"1.0.0", migrateTo100Structure⟩]

/-- Whether the Function has been migrated to the highest level this
system is aware of; `none` models the `semver.New` panic on a malformed
non-empty version. -/
def Function.Migrated (f : Function) : Option Bool :=
  if f.Version = "" then some false
  else
    match semverLT f.Version (migrations.getLastD ⟨"", fun _ f _ => (f, none)⟩).version with
    | none => none
    | some lt => some (!lt)

/-- The registry iteration inside `Function.Migrate`: skip a migration
unless the current version is less than its threshold, apply it
otherwise, and fail fast on any migration error, returning the partially
migrated result together with the error. -/
def migrateLoop (env : MigEnv) : List Migration → Function → Option (Function × Option String)
  | [], f => some (f, none)
  | m :: ms, f =>
    match semverLT f.Version m.version with
    | none => none
    | some false => migrateLoop env ms f
    | some true =>
      match m.migrate env f m.version with
      | (f', some e) => some (f', some e)
      | (f', none) => migrateLoop env ms f'

/-- Model of `Function.Migrate`: return immediately when already migrated, treat an
empty version as `0.0.0`, then iterate the registry.  `none` models a
`semver.New` panic on a malformed version. -/
def Function.Migrate (env : MigEnv) (f : Function) : Option (Function × Option String) :=
  match f.Migrated with
  | none => none
  | some true => some (f, none)
  | some false =>
    let f := if f.Version = "" then { f with Version := DefaultVersion } else f
    migrateLoop env migrations f

/-- Written from the words of the spec, as the reference for the refinement
proof: iterate the registry in order; for each migration whose threshold
is strictly greater than the current version (re-evaluated after each
step), apply the transformation and set the version to exactly the
threshold; abort immediately on the first transformation error,
returning the partially-migrated result and the error. -/
def specLoop (env : MigEnv) : List Migration → Function → Option (Function × Option String)
  | [], f => some (f, none)
  | m :: ms, f =>
    match semverLT f.Version m.version with
    | none => none
    | some false => specLoop env ms f
    | some true =>
      match m.migrate env f m.version with
      | (f', some e) => some (f', some e)
      | (f', none) => specLoop env ms { f' with Version := m.version }

/-- Written from the words of the spec, as the reference for the refinement
proof: if the version is empty treat it as `0.0.0`, then run the guarded
chain over the registry. -/
def migrateSpec (env : MigEnv) (f : Function) : Option (Function × Option String) :=
  let f := if f.Version = "" then { f with Version := DefaultVersion } else f
  specLoop env migrations f

/-! ## SHA-256 (model of `crypto/sha256`)

A byte is a `Nat` below 256; a word is a `Nat` below `2^32`, with
wrap-around made explicit by reduction modulo `2^32`. -/

def m32 (x : Nat) : Nat := x % 4294967296

def rotr32 (n x : Nat) : Nat := m32 ((x >>> n) ||| (x <<< (32 - n)))

def bigSigma0 (x : Nat) : Nat := rotr32 2 x ^^^ rotr32 13 x ^^^ rotr32 22 x

def bigSigma1 (x : Nat) : Nat := rotr32 6 x ^^^ rotr32 11 x ^^^ rotr32 25 x

def smallSigma0 (x : Nat) : Nat := rotr32 7 x ^^^ rotr32 18 x ^^^ (x >>> 3)

def smallSigma1 (x : Nat) : Nat := rotr32 17 x ^^^ rotr32 19 x ^^^ (x >>> 10)

def chFun (x y z : Nat) : Nat := (x &&& y) ^^^ ((x ^^^ 4294967295) &&& z)

def majFun (x y z : Nat) : Nat := (x &&& y) ^^^ (x &&& z) ^^^ (y &&& z)

def sha256K : List Nat :=
  [1116352408, 1899447441, 3049323471, 3921009573, 961987163,
   1508970993, 2453635748, 2870763221, 3624381080, 310598401,
   607225278, 1426881987, 1925078388, 2162078206, 2614888103,
   3248222580, 3835390401, 4022224774, 264347078, 604807628,
   770255983, 1249150122, 1555081692, 1996064986, 2554220882,
   2821834349, 2952996808, 3210313671, 3336571891, 3584528711,
   113926993, 338241895, 666307205, 773529912, 1294757372,
   1396182291, 1695183700, 1986661051, 2177026350, 2456956037,
   2730485921, 2820302411, 3259730800, 3345764771, 3516065817,
   3600352804, 4094571909, 275423344, 430227734, 506948616,
   659060556, 883997877, 958139571, 1322822218, 1537002063,
   1747873779, 1955562222, 2024104815, 2227730452, 2361852424,
   2428436474, 2756734187, 3204031479, 3329325298]

/-- Big-endian bytes of a 64-bit value. -/
def be64 (n : Nat) : List Nat :=
  [(n >>> 56) &&& 255, (n >>> 48) &&& 255, (n >>> 40) &&& 255, (n >>> 32) &&& 255,
   (n >>> 24) &&& 255, (n >>> 16) &&& 255, (n >>> 8) &&& 255, n &&& 255]

/-- Big-endian bytes of a 32-bit word. -/
def wordBytes (w : Nat) : List Nat :=
  [(w >>> 24) &&& 255, (w >>> 16) &&& 255, (w >>> 8) &&& 255, w &&& 255]

/-- Merkle–Damgård padding: `0x80`, zeros to 56 mod 64, 64-bit bit length. -/
def sha256Pad (msg : List Nat) : List Nat :=
  let L := msg.length
  msg ++ 0x80 :: List.replicate ((119 - L % 64) % 64) 0 ++ be64 (8 * L)

/-- Cut a byte list into 64-byte blocks. -/
def toBlocks (l : List Nat) : List (List Nat) :=
  if l = [] then []
  else l.take 64 :: toBlocks (l.drop 64)
termination_by l.length
decreasing_by
  rename_i h
  have hl : 0 < l.length := List.length_pos.mpr h
  simp only [List.length_drop]
  omega

/-- Big-endian 32-bit words of a block. -/
def bytesToWords : List Nat → List Nat
  | b0 :: b1 :: b2 :: b3 :: rest =>
    ((((b0 <<< 8) ||| b1) <<< 8 ||| b2) <<< 8 ||| b3) :: bytesToWords rest
  | _ => []

/-- One message-schedule extension step (appends `w[i]` for `i ≥ 16`). -/
def scheduleStep (w : List Nat) : List Nat :=
  let n := w.length
  let g := fun (i : Nat) => w.getD (n - i) 0
  w ++ [m32 (smallSigma1 (g 2) + g 7 + smallSigma0 (g 15) + g 16)]

def fullSchedule (w : List Nat) : List Nat :=
  (List.range 48).foldl (fun acc _ => scheduleStep acc) w

structure H8 where
  a : Nat
  b : Nat
  c : Nat
  d : Nat
  e : Nat
  f : Nat
  g : Nat
  h : Nat
  deriving Repr, DecidableEq

def initH : H8 :=
  ⟨1779033703, 3144134277, 1013904242, 2773480762,
   1359893119, 2600822924, 528734635, 1541459225⟩

def compressStep (st : H8) (kw : Nat × Nat) : H8 :=
  let t1 := m32 (st.h + bigSigma1 st.e + chFun st.e st.f st.g + kw.1 + kw.2)
  let t2 := m32 (bigSigma0 st.a + majFun st.a st.b st.c)
  ⟨m32 (t1 + t2), st.a, st.b, st.c, m32 (st.d + t1), st.e, st.f, st.g⟩

def processBlock (st : H8) (block : List Nat) : H8 :=
  let w := fullSchedule (bytesToWords block)
  let r := (sha256K.zip w).foldl compressStep st
  ⟨m32 (st.a + r.a), m32 (st.b + r.b), m32 (st.c + r.c), m32 (st.d + r.d),
   m32 (st.e + r.e), m32 (st.f + r.f), m32 (st.g + r.g), m32 (st.h + r.h)⟩

/-- SHA-256 digest bytes of a byte-list message. -/
def sha256Bytes (msg : List Nat) : List Nat :=
  let st := (toBlocks (sha256Pad msg)).foldl processBlock initH
  [st.a, st.b, st.c, st.d, st.e, st.f, st.g, st.h].flatMap wordBytes

def hexAlphabet : List Char := "0123456789abcdef".data

def hexDigit (n : Nat) : Char := hexAlphabet.getD (n % 16) '0'

/-- Go `%x` rendering of one byte: two lowercase hex digits. -/
def hexByte (b : Nat) : List Char := [hexDigit (b >>> 4), hexDigit b]

/-- Lowercase hexadecimal rendering of a digest (`fmt.Sprintf("%x", ...)`). -/
def hexString (bytes : List Nat) : String := String.mk (bytes.flatMap hexByte)

/-- UTF-8 bytes of one character (Go strings are UTF-8 encoded). -/
def utf8Bytes (c : Char) : List Nat :=
  let n := c.toNat
  if n < 0x80 then [n]
  else if n < 0x800 then
    [0xC0 ||| (n >>> 6), 0x80 ||| (n &&& 0x3F)]
  else if n < 0x10000 then
    [0xE0 ||| (n >>> 12), 0x80 ||| ((n >>> 6) &&& 0x3F), 0x80 ||| (n &&& 0x3F)]
  else
    [0xF0 ||| (n >>> 18), 0x80 ||| ((n >>> 12) &&& 0x3F),
     0x80 ||| ((n >>> 6) &&& 0x3F), 0x80 ||| (n &&& 0x3F)]

def strBytes (s : String) : List Nat := s.data.flatMap utf8Bytes

/-! ## Staleness engine (`fingerprint`, `Built`)

The project tree is modelled as a rose tree of named entries carrying
their modification time in nanoseconds.  `filepath.Walk` enumerates a
entries of a directory in lexical order; a child list in the model is that
already-ordered enumeration.  Returning `filepath.SkipDir` from the walk
function before anything is hashed removes a skipped directory entirely:
neither the directory entry itself nor anything below it is folded in. -/

inductive FSTree where
  | file (name : String) (mtime : Int)
  | dir (name : String) (mtime : Int) (children : List FSTree)

def FSTree.name : FSTree → String
  | .file n _ => n
  | .dir n _ _ => n

mutual

/-- The `(path, modification time)` pairs visited by `filepath.Walk`
starting at path `p` for entry `t`, with the run-data and version-control
directories skipped entirely. -/
def walkEntries (p : String) : FSTree → List (String × Int)
  | .file _ m => [(p, m)]
  | .dir n m cs =>
    if n = RunDataDir ∨ n = ".git" then []
    else (p, m) :: walkChildren p cs

/-- The walk entries contributed by the children of a directory at `p`. -/
def walkChildren (p : String) : List FSTree → List (String × Int)
  | [] => []
  | c :: cs => walkEntries (p ++ "/" ++ c.name) c ++ walkChildren p cs

end

/-- The walk entries relative to the root (the root itself contributes the
empty relative path). -/
def relEntries (t : FSTree) : List (String × Int) := walkEntries "" t

/-- The byte stream fed to the hash: `fmt.Fprintf(h, "%v:%v:", path,
info.ModTime().UnixNano())` for every visited entry. -/
def fingerprintInput (p : String) (t : FSTree) : String :=
  String.join ((walkEntries p t).map (fun e => e.1 ++ ":" ++ toString e.2 ++ ":"))

/-- Model of `fingerprint`: hash of the filenames and modification timestamps of
the files within the root of a Function. -/
def fingerprint (f : Function) (t : FSTree) : String :=
  hexString (sha256Bytes (strBytes (fingerprintInput f.Root t)))

/-- External observations made by `Client.Built`: the result of loading
the Function (`NewFunction`), of `os.Stat` on the build-stamp file
(success flag), of computing the fingerprint over the live filesystem,
and of `os.ReadFile` on the stamp. -/
structure BuiltEnv where
  loadRes : Except String Function
  statOK : Bool
  fingerprintRes : Except String String
  readRes : Except String String

/-- Model of `Client.Built`: true iff the path contains a Function which has been
built and not modified since.  Every failure, including I/O errors while
fingerprinting or reading the stamp, yields `false`. -/
def Built (env : BuiltEnv) : Bool :=
  match env.loadRes with
  | .error _ => false
  | .ok f =>
    if !f.HasImage then false
    else if !env.statOK then false
    else
      match env.fingerprintRes with
      | .error _ => false
      | .ok hash =>
        match env.readRes with
        | .error _ => false
        | .ok b => b == hash

/-! ## Lifecycle operations (`client.go`)

Each operation is a function of an environment holding the result each
external call would produce, returning its outcome together with the
trace of observable events it performs, in order.  Error values are
tagged by their origin, mirroring how the Go code keeps the distinguished
`ErrNotBuilt` sentinel apart from every other error it can return.  The
per-operation context-cancellation watcher goroutines and the non-verbose
build heartbeat ticker only touch the progress listener asynchronously;
being real-time behaviour they are not part of the sequential trace. -/

inductive Ev where
  | setTotal (n : Nat)
  | increment (msg : String)
  | complete (msg : String)
  | mkdirAll (path : String)
  | writeFile (path : String) (content : String)
  | writeDescriptor
  | callTemplatesWrite
  | callBuilder
  | callPusher
  | callDeployer
  | callDNS
  deriving Repr, DecidableEq

/-- Events that write file content (template writes included) as opposed
to directory creation and progress reporting. -/
def isWriteEv : Ev → Bool
  | .writeFile _ _ => true
  | .writeDescriptor => true
  | .callTemplatesWrite => true
  | _ => false

/-- The four collaborator invocations `New` sequences (template writes
and filesystem actions are not stages). -/
def isStageCall : Ev → Bool
  | .callBuilder => true
  | .callPusher => true
  | .callDeployer => true
  | .callDNS => true
  | _ => false

/-- Errors `Client` operations can return.  `notBuilt` is the
distinguished `ErrNotBuilt` sentinel; collaborator failures carry the
collaborator's opaque message. -/
inductive FnErr where
  | notBuilt
  | loadErr (msg : String)
  | absErr (msg : String)
  | mkdirErr (msg : String)
  | hasFuncErr (msg : String)
  | alreadyInitialized (root : String)
  | getwdErr (msg : String)
  | contentiousFiles (msg : String)
  | templatesErr (msg : String)
  | writeErr (msg : String)
  | derivedImageErr (msg : String)
  | builderErr (msg : String)
  | fingerprintErr (msg : String)
  | stampWriteErr (msg : String)
  | gitignoreErr (msg : String)
  | pusherErr (msg : String)
  | deployerErr (msg : String)
  | dnsErr (msg : String)
  deriving Repr, DecidableEq

/-- The fixed `.gitignore` content written by `ensureRuntimeDir` (the Go
raw string literal opens and closes on a newline). -/
def gitignoreContent : String :=
  "\n# Functions use the .func directory for local runtime data which should\n# generally not be tracked in source control:\n/.func\n"

/-- Results of the filesystem calls made while recording build metadata:
`os.MkdirAll` of the run data directory, `os.WriteFile` of `.gitignore`,
the fingerprint walk, and `os.WriteFile` of the stamp. -/
structure StampEnv where
  mkdirRes : Option String
  gitignoreRes : Option String
  fingerprintRes : Except String String
  stampWriteRes : Option String

/-- Model of `ensureRuntimeDir`: create the `.func` directory and (re)write the
fixed `.gitignore` at the project root.  `os.WriteFile` truncates: any
pre-existing `.gitignore` content is replaced, not appended to. -/
def ensureRuntimeDir (env : StampEnv) (f : Function) : Option FnErr × List Ev :=
  match env.mkdirRes with
  | some e => (some (.mkdirErr e), [.mkdirAll (f.Root ++ "/" ++ RunDataDir)])
  | none =>
    match env.gitignoreRes with
    | some e =>
      (some (.gitignoreErr e),
       [.mkdirAll (f.Root ++ "/" ++ RunDataDir),
        .writeFile (f.Root ++ "/.gitignore") gitignoreContent])
    | none =>
      (none,
       [.mkdirAll (f.Root ++ "/" ++ RunDataDir),
        .writeFile (f.Root ++ "/.gitignore") gitignoreContent])

/-- Model of `updateBuildStamp`: ensure the runtime directory, compute the current
fingerprint and write it verbatim into the stamp file. -/
def updateBuildStamp (env : StampEnv) (f : Function) : Option FnErr × List Ev :=
  match ensureRuntimeDir env f with
  | (some e, evs) => (some e, evs)
  | (none, evs) =>
    match env.fingerprintRes with
    | .error e => (some (.fingerprintErr e), evs)
    | .ok hash =>
      match env.stampWriteRes with
      | some e =>
        (some (.stampWriteErr e),
         evs ++ [.writeFile (f.Root ++ "/" ++ RunDataDir ++ "/" ++ buildstamp) hash])
      | none =>
        (none,
         evs ++ [.writeFile (f.Root ++ "/" ++ RunDataDir ++ "/" ++ buildstamp) hash])

/-- Modelled from the spec (`function.go` is not among the sources): the
name defaults to the directory name of the root. -/
def nameFromPath (p : String) : String := (p.splitOn "/").getLastD p

/-- Modelled from the spec (`function.go` is not among the sources):
`NewFunctionWith` builds the in-memory Descriptor from the given
defaults. -/
def NewFunctionWith (cfg : Function) : Function := cfg

/-- External calls made by `Client.Create`: `filepath.Abs`, `os.MkdirAll`
of the root, `hasInitializedFunction` (modelled from the spec: whether an
initialized Descriptor exists at the root — `function.go` is not among
the sources), `os.Getwd`, `assertEmptyRoot` (contentious-file check,
also in `function.go`), the runtime-dir writes, `Templates.Write` (which
may mutate the Function), the clock, and the descriptor write. -/
structure CreateEnv where
  absRes : Except String String
  mkdirRootRes : Option String
  hasFuncRes : Except String Bool
  getwdRes : Except String String
  assertEmptyRes : Option String
  runtimeDir : StampEnv
  templatesRes : Except String Function
  now : Int
  writeRes : Option String

/-- Model of `Client.Create`: never clobbers a pre-existing Function — the
already-initialized check runs before any file content is written. -/
def createOp (env : CreateEnv) (cfg : Function) : Except FnErr Unit × List Ev :=
  match env.absRes with
  | .error e => (.error (.absErr e), [])
  | .ok abs =>
    let cfg := { cfg with Root := abs }
    match env.mkdirRootRes with
    | some e => (.error (.mkdirErr e), [.mkdirAll cfg.Root])
    | none =>
      match env.hasFuncRes with
      | .error e => (.error (.hasFuncErr e), [.mkdirAll cfg.Root])
      | .ok true => (.error (.alreadyInitialized cfg.Root), [.mkdirAll cfg.Root])
      | .ok false =>
        match (if cfg.Root = "" then env.getwdRes.map (fun wd => { cfg with Root := wd })
               else .ok cfg) with
        | .error e => (.error (.getwdErr e), [.mkdirAll abs])
        | .ok cfg =>
          let cfg := if cfg.Name = "" then { cfg with Name := nameFromPath cfg.Root } else cfg
          match env.assertEmptyRes with
          | some e => (.error (.contentiousFiles e), [.mkdirAll abs])
          | none =>
            let f := NewFunctionWith cfg
            match ensureRuntimeDir env.runtimeDir f with
            | (some e, evs) => (.error e, .mkdirAll abs :: evs)
            | (none, evs) =>
              match env.templatesRes with
              | .error e => (.error (.templatesErr e), .mkdirAll abs :: evs ++ [.callTemplatesWrite])
              | .ok f2 =>
                let _f3 := { f2 with Created := env.now }
                match env.writeRes with
                | some e =>
                  (.error (.writeErr e),
                   .mkdirAll abs :: evs ++ [.callTemplatesWrite, .writeDescriptor])
                | none =>
                  (.ok (),
                   .mkdirAll abs :: evs ++ [.callTemplatesWrite, .writeDescriptor])

/-- External calls made by `Client.Build`: `NewFunction`, `DerivedImage`
(in `image.go`, not among the sources: derives the image tag from the
path and registry), the Builder collaborator, the descriptor write, the
build-stamp writes, and the `runtime.GOOS == "windows"` check feeding the
final message. -/
structure BuildEnv where
  loadRes : Except String Function
  derivedImageRes : Except String String
  builderRes : Option String
  writeRes : Option String
  stamp : StampEnv
  goosWindows : Bool

/-- Model of `Client.Build`: build the Function at path, persist the resolved
image, then record the build stamp. -/
def buildOp (env : BuildEnv) : Except FnErr Unit × List Ev :=
  let pre : List Ev := [.increment "Building function image"]
  match env.loadRes with
  | .error e => (.error (.loadErr e), pre)
  | .ok f =>
    match env.derivedImageRes with
    | .error e => (.error (.derivedImageErr e), pre)
    | .ok img =>
      let f := { f with Runtime := { f.Runtime with Image := img } }
      match env.builderRes with
      | some e => (.error (.builderErr e), pre ++ [.callBuilder])
      | none =>
        match env.writeRes with
        | some e => (.error (.writeErr e), pre ++ [.callBuilder, .writeDescriptor])
        | none =>
          match updateBuildStamp env.stamp f with
          | (some e, evs) => (.error e, pre ++ [.callBuilder, .writeDescriptor] ++ evs)
          | (none, evs) =>
            let msg :=
              if env.goosWindows then "Function image built: " ++ img
              else "🙌 Function image built: " ++ img
            (.ok (), pre ++ [.callBuilder, .writeDescriptor] ++ evs ++ [.increment msg])

/-- External calls made by `Client.Push`: `NewFunction`, the Pusher
collaborator (returning the image digest), and the descriptor write. -/
structure PushEnv where
  loadRes : Except String Function
  pushRes : Except String String
  writeRes : Option String

/-- Model of `Client.Push`: requires an image; on success records the returned
digest by writing the Descriptor back. -/
def pushOp (env : PushEnv) : Except FnErr Unit × List Ev :=
  match env.loadRes with
  | .error e => (.error (.loadErr e), [])
  | .ok f =>
    if !f.HasImage then (.error .notBuilt, [])
    else
      match env.pushRes with
      | .error e => (.error (.pusherErr e), [.callPusher])
      | .ok _digest =>
        match env.writeRes with
        | some e => (.error (.writeErr e), [.callPusher, .writeDescriptor])
        | none => (.ok (), [.callPusher, .writeDescriptor])

inductive Status where
  | Failed
  | Deployed
  | Updated
  deriving Repr, DecidableEq

structure DeploymentResult where
  status : Status
  url : String
  deriving Repr, DecidableEq

/-- External calls made by `Client.Deploy`: `NewFunction` and the
Deployer collaborator (result plus error, as in Go). -/
structure DeployEnv where
  loadRes : Except String Function
  deployRes : DeploymentResult × Option String

/-- Model of `Client.Deploy`: requires an image; reports the deployed/updated
outcome distinctly and returns the deployer's error. -/
def deployOp (env : DeployEnv) : Except FnErr Unit × List Ev :=
  match env.loadRes with
  | .error e => (.error (.loadErr e), [])
  | .ok f =>
    if !f.HasImage then (.error .notBuilt, [])
    else
      let (result, derr) := env.deployRes
      let evs : List Ev :=
        [.increment "Deploying function to the cluster", .callDeployer] ++
        (match result.status with
         | .Deployed => [.increment ("Function deployed at URL: " ++ result.url)]
         | .Updated => [.increment ("Function updated at URL: " ++ result.url)]
         | .Failed => [])
      (match derr with
       | some e => .error (.deployerErr e)
       | none => .ok (), evs)

/-- External calls made by `Client.Route`: `NewFunction` and the
DNSProvider collaborator. -/
structure RouteEnv where
  loadRes : Except String Function
  dnsRes : Option String

/-- Model of `Client.Route`: ensure the configured DNS provider routes the name. -/
def routeOp (env : RouteEnv) : Except FnErr Unit × List Ev :=
  match env.loadRes with
  | .error e => (.error (.loadErr e), [])
  | .ok _ =>
    match env.dnsRes with
    | some e => (.error (.dnsErr e), [.callDNS])
    | none => (.ok (), [.callDNS])

/-- External calls made by `Client.Remove`: `NewFunction` (used only when
no name is supplied), the Remover collaborator and the PipelinesProvider
collaborator.  The two removals run concurrently in Go and are joined
before the aggregate result is computed; the model records their already
joined results.  Error values are kept as their rendered messages, since
`Remove` aggregates by message formatting.  (Progress messages are not
modelled here; no verified property mentions them.) -/
structure RemoveEnv where
  loadRes : Except String Function
  removerRes : Option String
  pipelinesRes : Option String

/-- Model of `Client.Remove`: remove the service (and, with `deleteAll`, dependent
pipeline resources), combining both error messages when both fail. -/
def RemoveOp (env : RemoveEnv) (cfg : Function) (deleteAll : Bool) : Option String :=
  let go : Function → String → Option String := fun _cfg _name =>
    let errService := env.removerRes
    let errResources := if deleteAll then env.pipelinesRes else none
    match errService, errResources with
    | some a, some b => some (a ++ "\n" ++ b)
    | none, some b => some b
    | some a, none => some a
    | none, none => none
  if cfg.Name = "" then
    match env.loadRes with
    | .error e => some e
    | .ok f =>
      if !f.Initialized then
        some ("Function at " ++ f.Root ++
          " can not be removed unless initialized. Try removing by name")
      else go f f.Name
  else go cfg cfg.Name

/-- The environments consumed by the stages `Client.New` runs, plus the
`NewFunction` load it performs between Create and Build. -/
structure NewEnv where
  create : CreateEnv
  loadRes : Except String Function
  build : BuildEnv
  push : PushEnv
  deploy : DeployEnv
  route : RouteEnv

/-- Model of `Client.New`: Create, load, Build, Push, Deploy, Route, in that
order, returning at the first failing stage; reports an increment before
each of build/push/deploy/route and a final completion signal. -/
def newOp (env : NewEnv) (cfg : Function) : Except FnErr Unit × List Ev :=
  let pre : List Ev := [.setTotal 3]
  match createOp env.create cfg with
  | (.error e, evs) => (.error e, pre ++ evs)
  | (.ok _, evsC) =>
    match env.loadRes with
    | .error e => (.error (.loadErr e), pre ++ evsC)
    | .ok _f =>
      let evB : List Ev := [.increment "Building container image"]
      match buildOp env.build with
      | (.error e, evs) => (.error e, pre ++ evsC ++ evB ++ evs)
      | (.ok _, evsB) =>
        let evP : List Ev := [.increment "Pushing container image to registry"]
        match pushOp env.push with
        | (.error e, evs) => (.error e, pre ++ evsC ++ evB ++ evsB ++ evP ++ evs)
        | (.ok _, evsP) =>
          let evD : List Ev := [.increment "Deploying Function to cluster"]
          match deployOp env.deploy with
          | (.error e, evs) =>
            (.error e, pre ++ evsC ++ evB ++ evsB ++ evP ++ evsP ++ evD ++ evs)
          | (.ok _, evsD) =>
            let evR : List Ev := [.increment "Creating route to Function"]
            match routeOp env.route with
            | (.error e, evs) =>
              (.error e, pre ++ evsC ++ evB ++ evsB ++ evP ++ evsP ++ evD ++ evsD ++ evR ++ evs)
            | (.ok _, evsR) =>
              (.ok (),
               pre ++ evsC ++ evB ++ evsB ++ evP ++ evsP ++ evD ++ evsD ++ evR ++ evsR ++
               [.complete "Done"])

/-! ## Theorems -/

/-- C1: `Built(path)` returns true exactly when the Descriptor loads and
records an image, the build-stamp file exists, and the freshly computed
fingerprint was obtained and equals the readable stamp content; it
returns false in every other case — no image, missing or unreadable
stamp, stale fingerprint, or any I/O error (the function is total into
`Bool`, never an exception). -/
theorem built_characterization (env : BuiltEnv) :
    Built env = true ↔
      ∃ f hash, env.loadRes = .ok f ∧ f.HasImage = true ∧ env.statOK = true ∧
        env.fingerprintRes = .ok hash ∧ env.readRes = .ok hash := by
  rcases env with ⟨load, stat, fp, rd⟩
  unfold Built
  cases load with
  | error e => simp
  | ok f =>
    cases stat with
    | false => simp
    | true =>
      cases fp with
      | error e => cases hI : f.HasImage <;> simp [hI]
      | ok hash =>
        cases rd with
        | error e => cases hI : f.HasImage <;> simp [hI]
        | ok b =>
          cases hI : f.HasImage <;> simp [hI]

mutual

theorem walkEntries_shift (r s : String) :
    ∀ t : FSTree, walkEntries (r ++ s) t = (walkEntries s t).map (fun e => (r ++ e.1, e.2))
  | .file _ m => by simp [walkEntries]
  | .dir n m cs => by
    by_cases h : n = RunDataDir ∨ n = ".git"
    · simp [walkEntries, h]
    · simp only [walkEntries, if_neg h, List.map_cons]
      rw [walkChildren_shift r s cs]

theorem walkChildren_shift (r s : String) :
    ∀ cs : List FSTree,
      walkChildren (r ++ s) cs = (walkChildren s cs).map (fun e => (r ++ e.1, e.2))
  | [] => by simp [walkChildren]
  | c :: cs => by
    simp only [walkChildren, List.map_append]
    rw [walkChildren_shift r s cs,
      show r ++ s ++ "/" ++ c.name = r ++ (s ++ "/" ++ c.name) by
        simp [String.append_assoc],
      walkEntries_shift r (s ++ "/" ++ c.name) c]

end

/-- The absolute walk is the relative walk with the root prepended. -/
theorem walkEntries_eq_rel (root : String) (t : FSTree) :
    walkEntries root t = (relEntries t).map (fun e => (root ++ e.1, e.2)) := by
  have h := walkEntries_shift root "" t
  rwa [String.append_empty] at h

theorem hexDigit_mem (n : Nat) : hexDigit n ∈ hexAlphabet := by
  have h : n % 16 < hexAlphabet.length := Nat.mod_lt _ (by decide)
  unfold hexDigit
  rw [List.getD_eq_getElem hexAlphabet '0' h]
  exact List.getElem_mem h

/-- C2: for a fixed project root, `fingerprint` is a deterministic
function of the relative-path/modification-time pairs the walk observes:
trees inducing the same relative entries yield the same digest.  The
run-metadata (`.func`) and version-control (`.git`) directories are
skipped entirely — neither the directory entry nor anything below it is
folded in — and the digest is rendered with the lowercase hexadecimal
alphabet. -/
theorem fingerprint_deterministic :
    (∀ (f : Function) (t1 t2 : FSTree), relEntries t1 = relEntries t2 →
        fingerprint f t1 = fingerprint f t2) ∧
    (∀ (p : String) (m : Int) (cs : List FSTree),
        walkEntries p (.dir RunDataDir m cs) = [] ∧
        walkEntries p (.dir ".git" m cs) = []) ∧
    (∀ (f : Function) (t : FSTree), ∀ c ∈ (fingerprint f t).data, c ∈ hexAlphabet) := by
  refine ⟨?_, ?_, ?_⟩
  · intro f t1 t2 h
    unfold fingerprint fingerprintInput
    rw [walkEntries_eq_rel, walkEntries_eq_rel, h]
  · intro p m cs
    constructor <;> simp [walkEntries]
  · intro f t c hc
    unfold fingerprint hexString at hc
    simp only [String.data] at hc
    rcases List.mem_flatMap.mp hc with ⟨b, _, hb⟩
    simp only [hexByte, List.mem_cons, List.mem_singleton, List.not_mem_nil,
      or_false] at hb
    rcases hb with rfl | rfl <;> exact hexDigit_mem _

/-- Witness for C2: two concrete trees that differ only in a skipped
`.git`/`.func` subtree have equal relative entries and hence equal
fingerprints. -/
theorem fingerprint_deterministic_witness :
    relEntries (.dir "r" 0 [.file "a" 1, .dir ".git" 5 [.file "b" 2]]) =
      relEntries (.dir "r" 0 [.file "a" 1, .dir ".func" 9 [.file "c" 3]]) ∧
    fingerprint { Root := "/root/demo" } (.dir "r" 0 [.file "a" 1, .dir ".git" 5 [.file "b" 2]]) =
      fingerprint { Root := "/root/demo" } (.dir "r" 0 [.file "a" 1, .dir ".func" 9 [.file "c" 3]]) :=
  ⟨by decide, fingerprint_deterministic.1 _ _ _ (by decide)⟩

/-! ### Order lemmas for go-semver comparison against plain thresholds -/

lemma compare_noPre (s : Semver) (a b c : Nat) :
    Semver.Compare s ⟨a, b, c, "", ""⟩ < 0 ↔
      (s.Major < a ∨ (s.Major = a ∧ s.Minor < b) ∨
       (s.Major = a ∧ s.Minor = b ∧ s.Patch < c) ∨
       (s.Major = a ∧ s.Minor = b ∧ s.Patch = c ∧ s.PreRelease ≠ "")) := by
  simp only [Semver.Compare, Semver.Slice, recursiveCompare, preReleaseCompare]
  by_cases hP : s.PreRelease = "" <;>
    simp [hP] <;> split_ifs <;> simp_all <;> omega

lemma compare_noPre_left (s : Semver) (a b c : Nat) :
    Semver.Compare ⟨a, b, c, "", ""⟩ s < 0 ↔
      (a < s.Major ∨ (a = s.Major ∧ b < s.Minor) ∨
       (a = s.Major ∧ b = s.Minor ∧ c < s.Patch)) := by
  simp only [Semver.Compare, Semver.Slice, recursiveCompare, preReleaseCompare]
  by_cases hP : s.PreRelease = "" <;>
    simp [hP] <;> split_ifs <;> simp_all <;> omega

lemma cmpChars_self : ∀ l, cmpChars l l = 0
  | [] => rfl
  | a :: as => by simp [cmpChars, cmpChars_self as]

lemma rprc_self : ∀ l, recursivePreReleaseCompare l l = 0
  | [] => rfl
  | a :: as => by
    unfold recursivePreReleaseCompare
    cases h : goAtoi a <;> simp [h, cmpChars_self, rprc_self as]

lemma compare_self (s : Semver) : Semver.Compare s s = 0 := by
  simp only [Semver.Compare, Semver.Slice, recursiveCompare, preReleaseCompare]
  by_cases hP : s.PreRelease = "" <;> simp [hP, rprc_self]

lemma semverLT_eq_decide {v t : String} {sv st : Semver}
    (hv : semverParse v = some sv) (ht : semverParse t = some st) :
    semverLT v t = some (decide (sv.Compare st < 0)) := by
  unfold semverLT
  rw [hv, ht]

lemma semverLT_none_left {v : String} (t : String) (h : semverParse v = none) :
    semverLT v t = none := by
  unfold semverLT
  rw [h]

lemma parse100 : semverParse "1.0.0" = some ⟨1, 0, 0, "", ""⟩ := by decide

lemma parse019 : semverParse "0.19.0" = some ⟨0, 19, 0, "", ""⟩ := by decide

lemma parse023 : semverParse "0.23.0" = some ⟨0, 23, 0, "", ""⟩ := by decide

/-- A version that parses and is less than some threshold string compares
via its parsed value; conversely extract the parse from a `some` result. -/
lemma semverLT_some {v t : String} {r : Bool} (h : semverLT v t = some r) :
    ∃ sv st, semverParse v = some sv ∧ semverParse t = some st ∧
      r = decide (sv.Compare st < 0) := by
  unfold semverLT at h
  cases hv : semverParse v <;> cases ht : semverParse t <;> rw [hv, ht] at h <;>
    simp_all

lemma semverLT_irrefl {v : String} {s : Semver} (h : semverParse v = some s) :
    semverLT v v = some false := by
  rw [semverLT_eq_decide h h]
  simp [compare_self]

/-- Not being below `1.0.0` also rules out being below the earlier
thresholds of the registry. -/
lemma not_lt_100 {v : String} {s : Semver} (hp : semverParse v = some s)
    (h : semverLT v "1.0.0" = some false) :
    semverLT v "0.19.0" = some false ∧ semverLT v "0.23.0" = some false := by
  rw [semverLT_eq_decide hp parse100] at h
  rw [semverLT_eq_decide hp parse019, semverLT_eq_decide hp parse023]
  simp only [Option.some.injEq, decide_eq_false_iff_not] at h
  rw [compare_noPre] at h
  constructor <;>
    · simp only [Option.some.injEq, decide_eq_false_iff_not]
      rw [compare_noPre]
      by_cases hpre : s.PreRelease = "" <;> simp [hpre] at h ⊢ <;> omega

/-- Strict asymmetry against the `1.0.0` threshold. -/
lemma lt_100_asym {v : String} {s : Semver} (hp : semverParse v = some s)
    (h : semverLT v "1.0.0" = some true) : semverLT "1.0.0" v = some false := by
  rw [semverLT_eq_decide hp parse100] at h
  rw [semverLT_eq_decide parse100 hp]
  simp only [Option.some.injEq, decide_eq_true_eq] at h
  simp only [Option.some.injEq, decide_eq_false_iff_not]
  rw [compare_noPre] at h
  rw [compare_noPre_left]
  by_cases hpre : s.PreRelease = "" <;> simp [hpre] at h ⊢ <;> omega

/-! ### The migration chain refines the guarded chain of the spec -/

lemma migrated_eq (f : Function) :
    f.Migrated =
      if f.Version = "" then some false
      else
        match semverLT f.Version "1.0.0" with
        | none => none
        | some lt => some (!lt) := rfl

/-- Every registered migrator stamps the threshold version on success. -/
lemma migrators_set_version :
    ∀ m ∈ migrations, ∀ env f f',
      m.migrate env f m.version = (f', none) → f'.Version = m.version := by
  intro m hm env f f' h
  simp only [migrations, List.mem_cons, List.mem_singleton, List.not_mem_nil,
    or_false] at hm
  rcases hm with rfl | rfl | rfl
  · have h' : migrateToCreationStamp env f "0.19.0" = (f', none) := h
    unfold migrateToCreationStamp at h'
    have hv := congrArg (fun p => p.1.Version) h'
    simpa using hv.symm
  · have h' : migrateToBuilderImages env f "0.23.0" = (f', none) := h
    unfold migrateToBuilderImages at h'
    cases hr : env.readBuilderImagesFile <;> simp only [hr] at h'
    · exact absurd (congrArg (fun p => p.2) h') (by simp)
    · have hv := congrArg (fun p => p.1.Version) h'
      simpa using hv.symm
  · have h' : migrateTo100Structure env f "1.0.0" = (f', none) := h
    unfold migrateTo100Structure at h'
    cases hr : env.read100File <;> simp only [hr] at h'
    · exact absurd (congrArg (fun p => p.2) h') (by simp)
    · have hv := congrArg (fun p => p.1.Version) h'
      simpa using hv.symm

lemma specLoop_eq_migrateLoop (env : MigEnv) :
    ∀ ms : List Migration,
      (∀ m ∈ ms, ∀ env2 f f',
        m.migrate env2 f m.version = (f', none) → f'.Version = m.version) →
      ∀ f, specLoop env ms f = migrateLoop env ms f
  | [], _, f => rfl
  | m :: ms, h, f => by
    cases hlt : semverLT f.Version m.version with
    | none => simp only [specLoop, migrateLoop, hlt]
    | some lt =>
      cases lt with
      | false =>
        simp only [specLoop, migrateLoop, hlt]
        exact specLoop_eq_migrateLoop env ms
          (fun m' hm' => h m' (List.mem_cons_of_mem _ hm')) f
      | true =>
        cases hmig : m.migrate env f m.version with
        | mk f' err =>
          cases err with
          | some e => simp only [specLoop, migrateLoop, hlt, hmig]
          | none =>
            simp only [specLoop, migrateLoop, hlt, hmig]
            have hv := h m (List.mem_cons_self _ _) env f f' hmig
            rw [show ({ f' with Version := m.version } : Function) = f' from by
              rw [← hv]]
            exact specLoop_eq_migrateLoop env ms
              (fun m' hm' => h m' (List.mem_cons_of_mem _ hm')) f'

/-- C3: the registry thresholds ascend strictly, and `Migrate` coincides
with the description in the spec: with an empty version read as `0.0.0`, a
transformation is applied exactly when its threshold exceeds the current
(re-evaluated) version, in ascending registry order, the version is set
to exactly the threshold after each applied step, and the chain aborts
on the first transformation error returning the partial result with that
error. -/
theorem migrate_refines_spec :
    List.Chain' (fun a b => semverLT a b = some true)
      (migrations.map Migration.version) ∧
    ∀ env f, Function.Migrate env f = migrateSpec env f := by
  constructor
  · simp only [migrations, List.map_cons, List.map_nil, List.chain'_cons,
      List.chain'_singleton, and_true]
    exact ⟨by decide, by decide⟩
  · intro env f
    unfold Function.Migrate migrateSpec
    cases hm : f.Migrated with
    | none =>
      rw [migrated_eq] at hm
      by_cases hv : f.Version = ""
      · simp [hv] at hm
      · simp only [hv, if_neg, if_false] at hm
        cases hlt : semverLT f.Version "1.0.0" <;> rw [hlt] at hm
        · have hp : semverParse f.Version = none := by
            by_contra hc
            obtain ⟨s, hs⟩ := Option.ne_none_iff_exists'.mp hc
            rw [semverLT_eq_decide hs parse100] at hlt
            exact Option.some_ne_none _ hlt
          simp only [hv, if_false]
          simp only [migrations, specLoop]
          rw [semverLT_none_left "0.19.0" hp]
        · simp at hm
    | some b =>
      cases b with
      | true =>
        rw [migrated_eq] at hm
        by_cases hv : f.Version = ""
        · simp [hv] at hm
        · simp only [hv, if_false] at hm
          cases hlt : semverLT f.Version "1.0.0" <;> rw [hlt] at hm
          · simp at hm
          · rename_i lt
            have hlt' : lt = false := by simpa using hm
            subst hlt'
            obtain ⟨s, s1, hs, _, _⟩ := semverLT_some hlt
            obtain ⟨h19, h23⟩ := not_lt_100 hs hlt
            simp only [hv, if_false]
            simp only [migrations, specLoop]
            rw [h19, h23, hlt]
      | false =>
        exact (specLoop_eq_migrateLoop env migrations migrators_set_version _).symm

/-! ### Monotonicity and idempotence of the migration chain -/

/-- A successful full run of the registry always ends at version
`1.0.0`: every intermediate version is still below the last threshold,
so the final migration always applies and stamps it. -/
lemma migrateLoop_success_version (env : MigEnv) (f r : Function)
    (h0 : semverLT f.Version "1.0.0" = some true)
    (h : migrateLoop env migrations f = some (r, none)) : r.Version = "1.0.0" := by
  have d1 : semverLT "0.19.0" "0.23.0" = some true := by decide
  have d3 : semverLT "0.23.0" "1.0.0" = some true := by decide
  simp only [migrations, migrateLoop] at h
  cases hg1 : semverLT f.Version "0.19.0" with
  | none => rw [hg1] at h; exact Option.noConfusion h
  | some g1 =>
    simp only [hg1] at h
    cases g1 with
    | false =>
      cases hg2 : semverLT f.Version "0.23.0" with
      | none => rw [hg2] at h; exact Option.noConfusion h
      | some g2 =>
        simp only [hg2] at h
        cases g2 with
        | false =>
          simp only [h0] at h
          cases hr2 : env.read100File with
          | error e => simp only [migrateTo100Structure, hr2] at h; simp at h
          | ok f0 =>
            simp only [migrateTo100Structure, hr2] at h
            simp only [migrateLoop, Option.some.injEq, Prod.mk.injEq] at h
            rw [← h.1]
        | true =>
          cases hr : env.readBuilderImagesFile with
          | error e => simp only [migrateToBuilderImages, hr] at h; simp at h
          | ok f0 =>
            simp only [migrateToBuilderImages, hr] at h
            simp only [d3] at h
            cases hr2 : env.read100File with
            | error e => simp only [migrateTo100Structure, hr2] at h; simp at h
            | ok f1 =>
              simp only [migrateTo100Structure, hr2] at h
              simp only [migrateLoop, Option.some.injEq, Prod.mk.injEq] at h
              rw [← h.1]
    | true =>
      simp only [migrateToCreationStamp] at h
      simp only [d1] at h
      cases hr : env.readBuilderImagesFile with
      | error e => simp only [migrateToBuilderImages, hr] at h; simp at h
      | ok f0 =>
        simp only [migrateToBuilderImages, hr] at h
        simp only [d3] at h
        cases hr2 : env.read100File with
        | error e => simp only [migrateTo100Structure, hr2] at h; simp at h
        | ok f1 =>
          simp only [migrateTo100Structure, hr2] at h
          simp only [migrateLoop, Option.some.injEq, Prod.mk.injEq] at h
          rw [← h.1]

/-- C4: when `Migrate` succeeds, the resulting version is not less than
the input version, and running `Migrate` again on the result — under any
environment — returns the result unchanged (the chain is stable at its
fixpoint even though individual transformations are not idempotent). -/
theorem migrate_monotone_idempotent (env : MigEnv) (f r : Function)
    (h : Function.Migrate env f = some (r, none)) :
    (f.Version ≠ "" → semverLT r.Version f.Version = some false) ∧
    ∀ env2, Function.Migrate env2 r = some (r, none) := by
  unfold Function.Migrate at h
  cases hm : f.Migrated with
  | none => rw [hm] at h; simp at h
  | some b =>
    rw [hm] at h
    cases b with
    | true =>
      simp only [Option.some.injEq, Prod.mk.injEq] at h
      obtain ⟨rfl, -⟩ := h
      rw [migrated_eq] at hm
      by_cases hv : f.Version = ""
      · simp [hv] at hm
      · simp only [hv, if_false] at hm
        cases hlt : semverLT f.Version "1.0.0" <;> rw [hlt] at hm
        · simp at hm
        · rename_i lt
          have hl : lt = false := by simpa using hm
          subst hl
          obtain ⟨s, s1, hs, -, -⟩ := semverLT_some hlt
          refine ⟨fun _ => semverLT_irrefl hs, fun env2 => ?_⟩
          unfold Function.Migrate
          rw [migrated_eq]
          simp only [hv, if_false]
          rw [hlt]
          rfl
    | false =>
      rw [migrated_eq] at hm
      by_cases hv : f.Version = ""
      · simp only [hv, if_pos, if_true] at h
        have h0 : semverLT DefaultVersion "1.0.0" = some true := by decide
        have hr100 : r.Version = "1.0.0" := migrateLoop_success_version env _ r h0 h
        refine ⟨fun hne => absurd hv hne, fun env2 => ?_⟩
        unfold Function.Migrate
        rw [migrated_eq]
        have : ¬ r.Version = "" := by rw [hr100]; decide
        simp only [this, if_false]
        rw [hr100, show semverLT "1.0.0" "1.0.0" = some false from by decide]
        rfl
      · simp only [hv, if_false] at h hm
        cases hlt : semverLT f.Version "1.0.0" <;> rw [hlt] at hm
        · simp at hm
        · rename_i lt
          have hlt' : lt = true := by simpa using hm
          subst hlt'
          have hr100 : r.Version = "1.0.0" := migrateLoop_success_version env f r hlt h
          obtain ⟨s, s1, hs, -, -⟩ := semverLT_some hlt
          refine ⟨fun _ => ?_, fun env2 => ?_⟩
          · rw [hr100]
            exact lt_100_asym hs hlt
          · unfold Function.Migrate
            rw [migrated_eq]
            have hne : ¬ r.Version = "" := by rw [hr100]; decide
            simp only [hne, if_false]
            rw [hr100, show semverLT "1.0.0" "1.0.0" = some false from by decide]
            rfl

/-- Witness for C4 at a concrete pre-1.0.0 Descriptor. -/
theorem migrate_monotone_idempotent_witness :
    Function.Migrate ⟨42, .ok {}, .ok {}⟩
        { Name := "demo", Runtime := { Name := "go" }, Version := "0.1.0" } =
      some ({ Name := "demo", Runtime := { Name := "go" }, Version := "1.0.0",
              Created := 42 }, none) ∧
    semverLT "1.0.0" "0.1.0" = some false ∧
    Function.Migrate ⟨7, .error "gone", .error "gone"⟩
        { Name := "demo", Runtime := { Name := "go" }, Version := "1.0.0",
          Created := 42 } =
      some ({ Name := "demo", Runtime := { Name := "go" }, Version := "1.0.0",
              Created := 42 }, none) := by
  have h := migrate_monotone_idempotent ⟨42, .ok {}, .ok {}⟩
    { Name := "demo", Runtime := { Name := "go" }, Version := "0.1.0" }
    { Name := "demo", Runtime := { Name := "go" }, Version := "1.0.0", Created := 42 }
    (by decide)
  exact ⟨by decide, h.1 (by decide), h.2 ⟨7, .error "gone", .error "gone"⟩⟩

/-! ### The not-built sentinel and error handling of Push/Deploy/Remove -/

/-- C5: `Push` and `Deploy` on a loaded Descriptor with no image both
fail with the distinguished `ErrNotBuilt` sentinel, and conversely the
sentinel is produced only by that precondition — every other failure
mode (load error, collaborator error, write error) is a different error
value, so callers can distinguish it. -/
theorem push_deploy_not_built :
    (∀ (env : PushEnv) (f : Function), env.loadRes = .ok f → f.HasImage = false →
        (pushOp env).1 = .error .notBuilt) ∧
    (∀ (env : DeployEnv) (f : Function), env.loadRes = .ok f → f.HasImage = false →
        (deployOp env).1 = .error .notBuilt) ∧
    (∀ env : PushEnv, (pushOp env).1 = .error .notBuilt →
        ∃ f, env.loadRes = .ok f ∧ f.HasImage = false) ∧
    (∀ env : DeployEnv, (deployOp env).1 = .error .notBuilt →
        ∃ f, env.loadRes = .ok f ∧ f.HasImage = false) := by
  refine ⟨?_, ?_, ?_, ?_⟩
  · intro env f hl hI
    unfold pushOp
    rw [hl]
    simp [hI]
  · intro env f hl hI
    unfold deployOp
    rw [hl]
    simp [hI]
  · intro env h
    unfold pushOp at h
    rcases env with ⟨load, push, write⟩
    cases load with
    | error e => simp_all
    | ok f =>
      refine ⟨f, rfl, ?_⟩
      cases hI : f.HasImage <;> simp only [hI] at h <;>
        [skip; (cases push <;> cases write <;> simp_all)]
      rfl
  · intro env h
    unfold deployOp at h
    rcases env with ⟨load, deploy⟩
    cases load with
    | error e => simp_all
    | ok f =>
      refine ⟨f, rfl, ?_⟩
      rcases deploy with ⟨res, derr⟩
      cases hI : f.HasImage <;> simp only [hI] at h <;>
        [skip; (cases derr <;> simp_all)]
      rfl

/-- Witness for C5 at a Descriptor with an empty image reference. -/
theorem push_deploy_not_built_witness :
    (pushOp ⟨.ok {}, .ok "digest", none⟩).1 = .error .notBuilt ∧
    (deployOp ⟨.ok {}, (⟨.Deployed, "https://x"⟩, none)⟩).1 = .error .notBuilt :=
  ⟨push_deploy_not_built.1 _ {} rfl (by decide),
   push_deploy_not_built.2.1 _ {} rfl (by decide)⟩

/-- C6: in `Remove` with `deleteAll` set (name supplied), a failure of
both the service removal and the pipeline removal yields the single
combined message A ++ newline ++ B, which contains both A and B; exactly
one failure yields exactly that error; success requires both removals to
succeed. -/
theorem remove_error_aggregation (env : RemoveEnv) (cfg : Function)
    (A B : String) (hname : cfg.Name ≠ "") :
    (env.removerRes = some A → env.pipelinesRes = some B →
      RemoveOp env cfg true = some (A ++ "\n" ++ B) ∧
      A.data <:+: (A ++ "\n" ++ B).data ∧ B.data <:+: (A ++ "\n" ++ B).data) ∧
    (env.removerRes = some A → env.pipelinesRes = none →
      RemoveOp env cfg true = some A) ∧
    (env.removerRes = none → env.pipelinesRes = some B →
      RemoveOp env cfg true = some B) ∧
    (RemoveOp env cfg true = none ↔
      env.removerRes = none ∧ env.pipelinesRes = none) := by
  unfold RemoveOp
  simp only [hname, if_false, if_neg]
  refine ⟨?_, ?_, ?_, ?_⟩
  · intro hA hB
    rw [hA, hB]
    refine ⟨rfl, ?_, ?_⟩
    · refine ⟨[], ("\n" ++ B).data, ?_⟩
      simp [String.data_append, List.append_assoc]
    · refine ⟨(A ++ "\n").data, [], ?_⟩
      simp [String.data_append, List.append_assoc]
  · intro hA hB
    rw [hA, hB]
    rfl
  · intro hA hB
    rw [hA, hB]
    rfl
  · rcases env with ⟨load, rm, pp⟩
    cases rm <;> cases pp <;> simp

/-- Witness for C6: both removals failing with concrete messages. -/
theorem remove_error_aggregation_witness :
    RemoveOp ⟨.ok {}, some "svc boom", some "pipe boom"⟩ { Name := "fn" } true =
      some ("svc boom" ++ "\n" ++ "pipe boom") ∧
    RemoveOp ⟨.ok {}, some "svc boom", none⟩ { Name := "fn" } true =
      some "svc boom" :=
  ⟨((remove_error_aggregation ⟨.ok {}, some "svc boom", some "pipe boom"⟩
      { Name := "fn" } "svc boom" "pipe boom" (by decide)).1 rfl rfl).1,
   (remove_error_aggregation ⟨.ok {}, some "svc boom", none⟩
      { Name := "fn" } "svc boom" "pipe boom" (by decide)).2.1 rfl rfl⟩

/-! ### Frame properties of Create, Push and the build metadata writes -/

/-- C8: `Create` on a root that already holds an initialized Descriptor
fails with an error, and its trace contains no content write (no
template files, no descriptor, no `.gitignore`, no stamp) — the only
filesystem action that can have happened is `MkdirAll` of the already
existing root.  When path resolution and that mkdir succeed, the error
is precisely the already-initialized failure naming the resolved root. -/
theorem create_already_initialized (env : CreateEnv) (cfg : Function)
    (h : env.hasFuncRes = .ok true) :
    (∃ e, (createOp env cfg).1 = .error e) ∧
    (∀ ev ∈ (createOp env cfg).2, isWriteEv ev = false) ∧
    (∀ r, env.absRes = .ok r → env.mkdirRootRes = none →
      (createOp env cfg).1 = .error (.alreadyInitialized r)) := by
  rcases env with ⟨abs, mkdir, hasF, getwd, assertE, rtd, tpl, now, wr⟩
  simp only at h
  subst h
  unfold createOp
  cases abs with
  | error e => simp [isWriteEv]
  | ok r =>
    cases mkdir with
    | some e => simp [isWriteEv]
    | none => simp [isWriteEv]

/-- Witness for C8 at a concretely already-initialized root. -/
theorem create_already_initialized_witness :
    (createOp ⟨.ok "/w/demo", none, .ok true, .ok "/w", none,
        ⟨none, none, .ok "h", none⟩, .ok {}, 5, none⟩ { Name := "demo" }).1 =
      .error (.alreadyInitialized "/w/demo") :=
  (create_already_initialized _ { Name := "demo" } rfl).2.2 "/w/demo" rfl rfl

/-- C9: when the Pusher collaborator fails, `Push` returns exactly that
error and writes nothing — in particular the Descriptor (which would
carry the digest) is not persisted; conversely a descriptor write in
the trace of `Push` can only follow a successful push. -/
theorem push_failure_no_persist :
    (∀ (env : PushEnv) (f : Function) (e : String),
        env.loadRes = .ok f → f.HasImage = true → env.pushRes = .error e →
        (pushOp env).1 = .error (.pusherErr e) ∧
        Ev.writeDescriptor ∉ (pushOp env).2 ∧
        ∀ p c, Ev.writeFile p c ∉ (pushOp env).2) ∧
    (∀ env : PushEnv, Ev.writeDescriptor ∈ (pushOp env).2 →
        ∃ d, env.pushRes = .ok d) := by
  constructor
  · intro env f e hl hI hp
    unfold pushOp
    rw [hl, hp]
    simp [hI]
  · intro env h
    unfold pushOp at h
    rcases env with ⟨load, push, write⟩
    cases load with
    | error e => simp_all
    | ok f =>
      cases hI : f.HasImage <;> simp only [hI] at h
      · simp at h
      · cases push with
        | error e => simp_all
        | ok d => exact ⟨d, rfl⟩

/-- Witness for C9 with a concrete failing pusher. -/
theorem push_failure_no_persist_witness :
    (pushOp ⟨.ok { Runtime := { Image := "img" } }, .error "denied", none⟩).1 =
      .error (.pusherErr "denied") ∧
    Ev.writeDescriptor ∉
      (pushOp ⟨.ok { Runtime := { Image := "img" } }, .error "denied", none⟩).2 :=
  ⟨(push_failure_no_persist.1 _ { Runtime := { Image := "img" } } "denied"
      rfl (by decide) rfl).1,
   (push_failure_no_persist.1 _ { Runtime := { Image := "img" } } "denied"
      rfl (by decide) rfl).2.1⟩

/-- C10: every successful `Create` and every successful `Build` (through
`updateBuildStamp`) performs a full-file write (`os.WriteFile`, which
truncates — replacing, never appending) of the fixed `.gitignore` at the
project root, and the only non-empty non-comment line of the fixed content is
the `/.func` exclusion rule. -/
theorem gitignore_fixed_write :
    (∀ (env : CreateEnv) (cfg : Function), (createOp env cfg).1 = .ok () →
        ∃ r, Ev.writeFile (r ++ "/.gitignore") gitignoreContent ∈ (createOp env cfg).2) ∧
    (∀ (env : BuildEnv) (f : Function), env.loadRes = .ok f → (buildOp env).1 = .ok () →
        Ev.writeFile (f.Root ++ "/.gitignore") gitignoreContent ∈ (buildOp env).2) ∧
    ((splitChar '\n' gitignoreContent.data).filter
        (fun l => match l with | [] => false | c :: _ => c != '#') =
      [['/', '.', 'f', 'u', 'n', 'c']]) := by
  refine ⟨?_, ?_, by decide⟩
  · intro env cfg h
    rcases env with ⟨abs, mkdir, hasF, getwd, assertE, ⟨rmk, rgi, rfp, rsw⟩, tpl, now, wr⟩
    unfold createOp ensureRuntimeDir NewFunctionWith at h ⊢
    cases abs with
    | error e => simp at h
    | ok b =>
      cases mkdir with
      | some e => simp at h
      | none =>
        cases hasF with
        | error e => simp at h
        | ok hf =>
          cases hf with
          | true => simp at h
          | false =>
            by_cases hb : b = ""
            · simp only [hb] at h ⊢
              cases getwd with
              | error e => simp [Except.map] at h
              | ok wd =>
                simp only [ite_true, Except.map] at h
                by_cases hn : cfg.Name = "" <;>
                  simp only [hn] at h ⊢ <;>
                  cases assertE <;>
                  cases rmk <;>
                  cases rgi <;>
                  cases tpl <;>
                  cases wr <;>
                  simp_all [Except.map]
            · by_cases hn : cfg.Name = "" <;>
                simp only [hb, hn] at h ⊢ <;>
                cases assertE <;>
                cases rmk <;>
                cases rgi <;>
                cases tpl <;>
                cases wr <;>
                simp_all
  · intro env f hl h
    rcases env with ⟨load, dimg, bld, wr, ⟨rmk, rgi, rfp, rsw⟩, goos⟩
    simp only at hl
    subst hl
    unfold buildOp updateBuildStamp ensureRuntimeDir at h ⊢
    cases dimg with
    | error e => simp at h
    | ok img =>
      cases bld <;>
        cases wr <;>
        cases rmk <;>
        cases rgi <;>
        cases rfp <;>
        cases rsw <;>
        simp_all

/-- Witness for C10: a fully successful `Create` whose trace contains
the fixed `.gitignore` write. -/
theorem gitignore_fixed_write_witness :
    (createOp ⟨.ok "/w/demo", none, .ok false, .ok "/w", none,
        ⟨none, none, .ok "h", none⟩, .ok {}, 5, none⟩ { Name := "demo" }).1 = .ok () ∧
    ∃ r, Ev.writeFile (r ++ "/.gitignore") gitignoreContent ∈
      (createOp ⟨.ok "/w/demo", none, .ok false, .ok "/w", none,
          ⟨none, none, .ok "h", none⟩, .ok {}, 5, none⟩ { Name := "demo" }).2 :=
  ⟨rfl, gitignore_fixed_write.1 _ { Name := "demo" } rfl⟩

/-! ### Stage sequencing of `Client.New` -/

lemma createOp_stage (env : CreateEnv) (cfg : Function) :
    (createOp env cfg).2.filter isStageCall = [] := by
  rcases env with ⟨abs, mkdir, hasF, getwd, assertE, ⟨rmk, rgi, rfp, rsw⟩, tpl, now, wr⟩
  unfold createOp ensureRuntimeDir NewFunctionWith
  cases abs with
  | error e => simp
  | ok b =>
    cases mkdir with
    | some e => simp [isStageCall]
    | none =>
      cases hasF with
      | error e => simp [isStageCall]
      | ok hf =>
        cases hf with
        | true => simp [isStageCall]
        | false =>
          by_cases hb : b = ""
          · cases getwd with
            | error e => simp [hb, Except.map, isStageCall]
            | ok wd =>
              by_cases hn : cfg.Name = "" <;>
                cases assertE <;>
                cases rmk <;>
                cases rgi <;>
                cases tpl <;>
                cases wr <;>
                simp_all [Except.map, isStageCall]
          · by_cases hn : cfg.Name = "" <;>
              cases assertE <;>
              cases rmk <;>
              cases rgi <;>
              cases tpl <;>
              cases wr <;>
              simp_all [isStageCall]

lemma buildOp_stage (env : BuildEnv) :
    (buildOp env).2.filter isStageCall = [] ∨
    (buildOp env).2.filter isStageCall = [.callBuilder] := by
  rcases env with ⟨load, dimg, bld, wr, ⟨rmk, rgi, rfp, rsw⟩, goos⟩
  unfold buildOp updateBuildStamp ensureRuntimeDir
  cases load <;> cases dimg <;> cases bld <;> cases wr <;>
    cases rmk <;> cases rgi <;> cases rfp <;> cases rsw <;>
    simp [isStageCall]

lemma buildOp_stage_ok (env : BuildEnv) (h : (buildOp env).1 = .ok ()) :
    (buildOp env).2.filter isStageCall = [.callBuilder] := by
  rcases env with ⟨load, dimg, bld, wr, ⟨rmk, rgi, rfp, rsw⟩, goos⟩
  unfold buildOp updateBuildStamp ensureRuntimeDir at h ⊢
  cases load <;> cases dimg <;> cases bld <;> cases wr <;>
    cases rmk <;> cases rgi <;> cases rfp <;> cases rsw <;>
    simp_all [isStageCall]

lemma pushOp_stage (env : PushEnv) :
    (pushOp env).2.filter isStageCall = [] ∨
    (pushOp env).2.filter isStageCall = [.callPusher] := by
  rcases env with ⟨load, push, wr⟩
  unfold pushOp
  cases load with
  | error e => simp
  | ok f =>
    cases hI : f.HasImage <;> cases push <;> cases wr <;>
      simp [hI, isStageCall]

lemma pushOp_stage_ok (env : PushEnv) (h : (pushOp env).1 = .ok ()) :
    (pushOp env).2.filter isStageCall = [.callPusher] := by
  rcases env with ⟨load, push, wr⟩
  unfold pushOp at h ⊢
  cases load with
  | error e => simp at h
  | ok f =>
    cases hI : f.HasImage <;> cases push <;> cases wr <;>
      simp_all [hI, isStageCall]

lemma deployOp_stage (env : DeployEnv) :
    (deployOp env).2.filter isStageCall = [] ∨
    (deployOp env).2.filter isStageCall = [.callDeployer] := by
  rcases env with ⟨load, ⟨res, derr⟩⟩
  unfold deployOp
  cases load with
  | error e => simp
  | ok f =>
    cases hI : f.HasImage <;> cases hs : res.status <;> cases derr <;>
      simp [hI, hs, isStageCall]

lemma deployOp_stage_ok (env : DeployEnv) (h : (deployOp env).1 = .ok ()) :
    (deployOp env).2.filter isStageCall = [.callDeployer] := by
  rcases env with ⟨load, ⟨res, derr⟩⟩
  unfold deployOp at h ⊢
  cases load with
  | error e => simp at h
  | ok f =>
    cases hI : f.HasImage <;> cases hs : res.status <;> cases derr <;>
      simp_all [hI, hs, isStageCall]

lemma routeOp_stage (env : RouteEnv) :
    (routeOp env).2.filter isStageCall = [] ∨
    (routeOp env).2.filter isStageCall = [.callDNS] := by
  rcases env with ⟨load, dns⟩
  unfold routeOp
  cases load <;> cases dns <;> simp [isStageCall]

lemma routeOp_stage_ok (env : RouteEnv) (h : (routeOp env).1 = .ok ()) :
    (routeOp env).2.filter isStageCall = [.callDNS] := by
  rcases env with ⟨load, dns⟩
  unfold routeOp at h ⊢
  cases load <;> cases dns <;> simp_all [isStageCall]

lemma not_mem_of_stage_filter {l : List Ev} {ev : Ev}
    (hev : isStageCall ev = true) (h : l.filter isStageCall = []) : ev ∉ l := by
  intro hm
  have := List.mem_filter.mpr ⟨hm, hev⟩
  rw [h] at this
  exact List.not_mem_nil _ this

lemma not_mem_of_stage_single {l : List Ev} {ev b : Ev}
    (hev : isStageCall ev = true)
    (h : l.filter isStageCall = [] ∨ l.filter isStageCall = [b])
    (hne : ev ≠ b) : ev ∉ l := by
  intro hm
  have hf := List.mem_filter.mpr ⟨hm, hev⟩
  rcases h with h | h <;> rw [h] at hf
  · exact List.not_mem_nil _ hf
  · exact hne (List.mem_singleton.mp hf)

/-- C7: `New` runs Create, load, Build, Push, Deploy, Route in that
fixed order.  On success the stage collaborators are invoked exactly
once each, in that order; the four progress increments (build, push,
deploy, route) appear in order followed by the final completion signal,
which is the last event.  On a failure the error of the failing stage is
returned unchanged and no later stage collaborator is invoked. -/
theorem new_sequences_stages :
    (∀ (env : NewEnv) (cfg : Function), (newOp env cfg).1 = .ok () →
      ((newOp env cfg).2.filter isStageCall =
        [.callBuilder, .callPusher, .callDeployer, .callDNS]) ∧
      (List.Sublist
        [.increment "Building container image",
         .increment "Pushing container image to registry",
         .increment "Deploying Function to cluster",
         .increment "Creating route to Function",
         .complete "Done"] (newOp env cfg).2) ∧
      (∃ pre, (newOp env cfg).2 = pre ++ [.complete "Done"])) ∧
    (∀ (env : NewEnv) (cfg : Function) (e : FnErr),
      (createOp env.create cfg).1 = .error e →
      (newOp env cfg).1 = .error e ∧ (newOp env cfg).2.filter isStageCall = []) ∧
    (∀ (env : NewEnv) (cfg : Function) (m : String),
      (createOp env.create cfg).1 = .ok () → env.loadRes = .error m →
      (newOp env cfg).1 = .error (.loadErr m) ∧
      (newOp env cfg).2.filter isStageCall = []) ∧
    (∀ (env : NewEnv) (cfg : Function) (e : FnErr) (f : Function),
      (createOp env.create cfg).1 = .ok () → env.loadRes = .ok f →
      (buildOp env.build).1 = .error e →
      (newOp env cfg).1 = .error e ∧ Ev.callPusher ∉ (newOp env cfg).2 ∧
      Ev.callDeployer ∉ (newOp env cfg).2 ∧ Ev.callDNS ∉ (newOp env cfg).2) ∧
    (∀ (env : NewEnv) (cfg : Function) (e : FnErr) (f : Function),
      (createOp env.create cfg).1 = .ok () → env.loadRes = .ok f →
      (buildOp env.build).1 = .ok () → (pushOp env.push).1 = .error e →
      (newOp env cfg).1 = .error e ∧ Ev.callDeployer ∉ (newOp env cfg).2 ∧
      Ev.callDNS ∉ (newOp env cfg).2) ∧
    (∀ (env : NewEnv) (cfg : Function) (e : FnErr) (f : Function),
      (createOp env.create cfg).1 = .ok () → env.loadRes = .ok f →
      (buildOp env.build).1 = .ok () → (pushOp env.push).1 = .ok () →
      (deployOp env.deploy).1 = .error e →
      (newOp env cfg).1 = .error e ∧ Ev.callDNS ∉ (newOp env cfg).2) := by
  refine ⟨?_, ?_, ?_, ?_, ?_, ?_⟩
  · -- success: exact stage order, increments in order, final completion
    intro env cfg h
    rcases hc : createOp env.create cfg with ⟨cres, evsC⟩
    have fC := createOp_stage env.create cfg
    rw [hc] at fC
    cases cres with
    | error e => simp only [newOp, hc] at h; exact absurd h (by simp)
    | ok u =>
      cases hl : env.loadRes with
      | error m => simp only [newOp, hc, hl] at h; exact absurd h (by simp)
      | ok f =>
        rcases hb : buildOp env.build with ⟨bres, evsB⟩
        cases bres with
        | error e => simp only [newOp, hc, hl, hb] at h; exact absurd h (by simp)
        | ok u2 =>
          have fB := buildOp_stage_ok env.build (by rw [hb])
          rw [hb] at fB
          rcases hp : pushOp env.push with ⟨pres, evsP⟩
          cases pres with
          | error e => simp only [newOp, hc, hl, hb, hp] at h; exact absurd h (by simp)
          | ok u3 =>
            have fP := pushOp_stage_ok env.push (by rw [hp])
            rw [hp] at fP
            rcases hd : deployOp env.deploy with ⟨dres, evsD⟩
            cases dres with
            | error e =>
              simp only [newOp, hc, hl, hb, hp, hd] at h; exact absurd h (by simp)
            | ok u4 =>
              have fD := deployOp_stage_ok env.deploy (by rw [hd])
              rw [hd] at fD
              rcases hr : routeOp env.route with ⟨rres, evsR⟩
              cases rres with
              | error e =>
                simp only [newOp, hc, hl, hb, hp, hd, hr] at h
                exact absurd h (by simp)
              | ok u5 =>
                have fR := routeOp_stage_ok env.route (by rw [hr])
                rw [hr] at fR
                refine ⟨?_, ?_, ?_⟩
                · simp only [newOp, hc, hl, hb, hp, hd, hr]
                  simp [List.filter_append, fC, fB, fP, fD, fR, isStageCall]
                · simp only [newOp, hc, hl, hb, hp, hd, hr]
                  simp only [List.append_assoc, List.singleton_append,
                    List.cons_append, List.nil_append]
                  exact ((((((List.sublist_append_right evsR
                    [Ev.complete "Done"]).cons₂
                      (Ev.increment "Creating route to Function")).trans
                    (List.sublist_append_right evsD _)).cons₂
                      (Ev.increment "Deploying Function to cluster") |>.trans
                    (List.sublist_append_right evsP _)).cons₂
                      (Ev.increment "Pushing container image to registry") |>.trans
                    (List.sublist_append_right evsB _)).cons₂
                      (Ev.increment "Building container image") |>.trans
                    (List.sublist_append_right evsC _)).cons (Ev.setTotal 3)
                · refine ⟨[Ev.setTotal 3] ++ evsC ++
                    [Ev.increment "Building container image"] ++ evsB ++
                    [Ev.increment "Pushing container image to registry"] ++ evsP ++
                    [Ev.increment "Deploying Function to cluster"] ++ evsD ++
                    [Ev.increment "Creating route to Function"] ++ evsR, ?_⟩
                  simp only [newOp, hc, hl, hb, hp, hd, hr, List.append_assoc]
  · -- create fails: its error is returned, no stage collaborator runs
    intro env cfg e h
    rcases hc : createOp env.create cfg with ⟨cres, evsC⟩
    have fC := createOp_stage env.create cfg
    rw [hc] at fC
    rw [hc] at h
    simp only at h
    subst h
    constructor
    · simp only [newOp, hc]
    · simp only [newOp, hc]
      simp [List.filter_append, fC, isStageCall]
  · -- load fails after create
    intro env cfg m hcr hl
    rcases hc : createOp env.create cfg with ⟨cres, evsC⟩
    have fC := createOp_stage env.create cfg
    rw [hc] at fC
    rw [hc] at hcr
    simp only at hcr
    subst hcr
    constructor
    · simp only [newOp, hc, hl]
    · simp only [newOp, hc, hl]
      simp [List.filter_append, fC, isStageCall]
  · -- build fails: its error is returned, push/deploy/route not invoked
    intro env cfg e f hcr hl hbf
    rcases hc : createOp env.create cfg with ⟨cres, evsC⟩
    have fC := createOp_stage env.create cfg
    rw [hc] at fC
    rw [hc] at hcr
    simp only at hcr
    subst hcr
    rcases hb : buildOp env.build with ⟨bres, evsB⟩
    have fB := buildOp_stage env.build
    rw [hb] at fB
    rw [hb] at hbf
    simp only at hbf
    subst hbf
    refine ⟨by simp only [newOp, hc, hl, hb], ?_, ?_, ?_⟩ <;>
      · simp only [newOp, hc, hl, hb]
        simp only [List.mem_append, List.mem_cons, List.mem_singleton,
          List.not_mem_nil]
        push_neg
        refine ⟨⟨⟨by simp, not_mem_of_stage_filter (by decide) fC⟩, by simp⟩,
          not_mem_of_stage_single (by decide) fB (by decide)⟩
  · -- push fails: its error is returned, deploy/route not invoked
    intro env cfg e f hcr hl hbo hpf
    rcases hc : createOp env.create cfg with ⟨cres, evsC⟩
    have fC := createOp_stage env.create cfg
    rw [hc] at fC
    rw [hc] at hcr
    simp only at hcr
    subst hcr
    rcases hb : buildOp env.build with ⟨bres, evsB⟩
    have fB := buildOp_stage env.build
    rw [hb] at fB
    rw [hb] at hbo
    simp only at hbo
    subst hbo
    rcases hp : pushOp env.push with ⟨pres, evsP⟩
    have fP := pushOp_stage env.push
    rw [hp] at fP
    rw [hp] at hpf
    simp only at hpf
    subst hpf
    refine ⟨by simp only [newOp, hc, hl, hb, hp], ?_, ?_⟩ <;>
      · simp only [newOp, hc, hl, hb, hp]
        simp only [List.mem_append, List.mem_cons, List.mem_singleton,
          List.not_mem_nil]
        push_neg
        refine ⟨⟨⟨⟨⟨by simp, not_mem_of_stage_filter (by decide) fC⟩, by simp⟩,
          not_mem_of_stage_single (by decide) fB (by decide)⟩, by simp⟩,
          not_mem_of_stage_single (by decide) fP (by decide)⟩
  · -- deploy fails: its error is returned, route not invoked
    intro env cfg e f hcr hl hbo hpo hdf
    rcases hc : createOp env.create cfg with ⟨cres, evsC⟩
    have fC := createOp_stage env.create cfg
    rw [hc] at fC
    rw [hc] at hcr
    simp only at hcr
    subst hcr
    rcases hb : buildOp env.build with ⟨bres, evsB⟩
    have fB := buildOp_stage env.build
    rw [hb] at fB
    rw [hb] at hbo
    simp only at hbo
    subst hbo
    rcases hp : pushOp env.push with ⟨pres, evsP⟩
    have fP := pushOp_stage env.push
    rw [hp] at fP
    rw [hp] at hpo
    simp only at hpo
    subst hpo
    rcases hd : deployOp env.deploy with ⟨dres, evsD⟩
    have fD := deployOp_stage env.deploy
    rw [hd] at fD
    rw [hd] at hdf
    simp only at hdf
    subst hdf
    refine ⟨by simp only [newOp, hc, hl, hb, hp, hd], ?_⟩
    simp only [newOp, hc, hl, hb, hp, hd]
    simp only [List.mem_append, List.mem_cons, List.mem_singleton,
      List.not_mem_nil]
    push_neg
    refine ⟨⟨⟨⟨⟨⟨⟨by simp, not_mem_of_stage_filter (by decide) fC⟩, by simp⟩,
      not_mem_of_stage_single (by decide) fB (by decide)⟩, by simp⟩,
      not_mem_of_stage_single (by decide) fP (by decide)⟩, by simp⟩,
      not_mem_of_stage_single (by decide) fD (by decide)⟩

/-- Witness for C7: a fully successful `New` at a concrete environment,
invoking the four stages in order. -/
theorem new_sequences_stages_witness :
    (newOp
        ⟨⟨.ok "/w/demo", none, .ok false, .ok "/w", none,
          ⟨none, none, .ok "h", none⟩, .ok {}, 5, none⟩,
         .ok { Name := "demo", Runtime := { Image := "demo:latest" } },
         ⟨.ok { Name := "demo" }, .ok "demo:latest", none, none,
          ⟨none, none, .ok "h", none⟩, false⟩,
         ⟨.ok { Name := "demo", Runtime := { Image := "demo:latest" } },
          .ok "sha256:abc", none⟩,
         ⟨.ok { Name := "demo", Runtime := { Image := "demo:latest" } },
          (⟨.Deployed, "https://demo"⟩, none)⟩,
         ⟨.ok { Name := "demo", Runtime := { Image := "demo:latest" } }, none⟩⟩
        { Name := "demo" }).1 = .ok () ∧
    (newOp
        ⟨⟨.ok "/w/demo", none, .ok false, .ok "/w", none,
          ⟨none, none, .ok "h", none⟩, .ok {}, 5, none⟩,
         .ok { Name := "demo", Runtime := { Image := "demo:latest" } },
         ⟨.ok { Name := "demo" }, .ok "demo:latest", none, none,
          ⟨none, none, .ok "h", none⟩, false⟩,
         ⟨.ok { Name := "demo", Runtime := { Image := "demo:latest" } },
          .ok "sha256:abc", none⟩,
         ⟨.ok { Name := "demo", Runtime := { Image := "demo:latest" } },
          (⟨.Deployed, "https://demo"⟩, none)⟩,
         ⟨.ok { Name := "demo", Runtime := { Image := "demo:latest" } }, none⟩⟩
        { Name := "demo" }).2.filter isStageCall =
      [.callBuilder, .callPusher, .callDeployer, .callDNS] :=
  ⟨rfl, (new_sequences_stages.1
    ⟨⟨.ok "/w/demo", none, .ok false, .ok "/w", none,
      ⟨none, none, .ok "h", none⟩, .ok {}, 5, none⟩,
     .ok { Name := "demo", Runtime := { Image := "demo:latest" } },
     ⟨.ok { Name := "demo" }, .ok "demo:latest", none, none,
      ⟨none, none, .ok "h", none⟩, false⟩,
     ⟨.ok { Name := "demo", Runtime := { Image := "demo:latest" } },
      .ok "sha256:abc", none⟩,
     ⟨.ok { Name := "demo", Runtime := { Image := "demo:latest" } },
      (⟨.Deployed, "https://demo"⟩, none)⟩,
     ⟨.ok { Name := "demo", Runtime := { Image := "demo:latest" } }, none⟩⟩
    { Name := "demo" } rfl).1⟩

end KnFunc
